import Mathlib

/-!
Todo service (`src/main.go`): the handlers over the in-memory collection.

The five gin handlers read and write one package-level slice, `todos`.  Each
handler is embedded as a function from the collection before the request (and
the request's already-extracted parameters) to the JSON response written with
`c.JSON` together with the collection after the request.

* The `:id` path parameter enters as the `int` that `strconv.Atoi` produced.
* The outcome of `c.BindJSON` enters as `Except String Todo`: either the error
  text (`err.Error()`) or the decoded struct, including whatever `id` the body
  carried.
* `len(todos) + 1` is computed in `Int`; a Go slice of 40-byte structs cannot
  come near `2^63` elements, so the machine addition never wraps.
-/

namespace TodoApi

/-- Go `type Todo struct`. -/
structure Todo where
  ID : Int
  Title : String
  Done : Bool
deriving DecidableEq

/-- The value handed to `c.JSON` as the body: the whole slice, one `Todo`,
`gin.H{"error": msg}` or `gin.H{"message": msg}`. -/
inductive Payload where
  | todoList (ts : List Todo)
  | todo (t : Todo)
  | error (msg : String)
  | message (msg : String)
deriving DecidableEq

/-- One `c.JSON(status, body)` call. -/
structure Response where
  status : Nat
  body : Payload
deriving DecidableEq

/-- `http.StatusOK`. -/
def StatusOK : Nat := 200
/-- `http.StatusCreated`. -/
def StatusCreated : Nat := 201
/-- `http.StatusBadRequest`. -/
def StatusBadRequest : Nat := 400
/-- `http.StatusNotFound`. -/
def StatusNotFound : Nat := 404

/-- `var todos = []Todo{}`: the collection at process start. -/
def todos : List Todo := []

/-- `func GetTodos`: `c.JSON(http.StatusOK, todos)`. -/
def GetTodos (s : List Todo) : Response × List Todo :=
  (⟨StatusOK, .todoList s⟩, s)

/-- The `for _, t := range todos` loop of `GetTodoByID`, with the statement
after the loop as the exhausted case. -/
def GetTodoByID.loop (id : Int) : List Todo → Response
  | [] => ⟨StatusNotFound, .error "Todo not found"⟩
  | t :: rest => if t.ID = id then ⟨StatusOK, .todo t⟩ else GetTodoByID.loop id rest

/-- `func GetTodoByID`; `todos` is never assigned. -/
def GetTodoByID (s : List Todo) (id : Int) : Response × List Todo :=
  (GetTodoByID.loop id s, s)

/-- `func CreateTodo`. -/
def CreateTodo (s : List Todo) (body : Except String Todo) : Response × List Todo :=
  match body with
  | .error err => (⟨StatusBadRequest, .error err⟩, s)
  | .ok newTodo =>
    let newTodo : Todo := { newTodo with ID := (s.length : Int) + 1 }
    (⟨StatusCreated, .todo newTodo⟩, s ++ [newTodo])

/-- The `for i, t := range todos` loop of `UpdateTodo`.  `rest` is what remains
to be visited of the slice `s`, `i` the index of its head; the length equation
keeps every `todos[i]` in range. -/
def UpdateTodo.loop (s : List Todo) (id : Int) (updatedTodo : Todo) :
    (i : Nat) → (rest : List Todo) → i + rest.length = s.length → Response × List Todo
  | _, [], _ => (⟨StatusNotFound, .error "Todo not found"⟩, s)
  | i, t :: rest, h =>
    if t.ID = id then
      have hi : i < s.length := by simp at h; omega
      let s1 := s.set i { s[i] with Title := updatedTodo.Title }
      have hi1 : i < s1.length := by simpa [s1] using hi
      let s2 := s1.set i { s1[i] with Done := updatedTodo.Done }
      have hi2 : i < s2.length := by simpa [s2] using hi1
      (⟨StatusOK, .todo s2[i]⟩, s2)
    else
      UpdateTodo.loop s id updatedTodo (i + 1) rest (by simp at h; omega)

/-- `func UpdateTodo`. -/
def UpdateTodo (s : List Todo) (id : Int) (body : Except String Todo) :
    Response × List Todo :=
  match body with
  | .error err => (⟨StatusBadRequest, .error err⟩, s)
  | .ok updatedTodo => UpdateTodo.loop s id updatedTodo 0 s (by simp)

/-- The `for i, t := range todos` loop of `DeleteTodo`;
`append(todos[:i], todos[i+1:]...)` is `s.take i ++ s.drop (i + 1)`. -/
def DeleteTodo.loop (s : List Todo) (id : Int) : Nat → List Todo → Response × List Todo
  | _, [] => (⟨StatusNotFound, .error "Todo not found"⟩, s)
  | i, t :: rest =>
    if t.ID = id then
      (⟨StatusOK, .message "Deleted"⟩, s.take i ++ s.drop (i + 1))
    else
      DeleteTodo.loop s id (i + 1) rest

/-- `func DeleteTodo`. -/
def DeleteTodo (s : List Todo) (id : Int) : Response × List Todo :=
  DeleteTodo.loop s id 0 s

/-- The five routes registered in `main`. -/
inductive Request where
  | list
  | get (id : Int)
  | create (body : Except String Todo)
  | update (id : Int) (body : Except String Todo)
  | delete (id : Int)

/-- Router dispatch: the handler mounted for the request's route. -/
def handle (s : List Todo) : Request → Response × List Todo
  | .list => GetTodos s
  | .get id => GetTodoByID s id
  | .create body => CreateTodo s body
  | .update id body => UpdateTodo s id body
  | .delete id => DeleteTodo s id

/-- The collection after serving the requests one after another. -/
def run (s : List Todo) : List Request → List Todo
  | [] => s
  | r :: rs => run (handle s r).2 rs

/-- The responses written while serving the requests one after another. -/
def responses (s : List Todo) : List Request → List Response
  | [] => []
  | r :: rs => (handle s r).1 :: responses (handle s r).2 rs

/-- A collection some request sequence produces from the initial one. -/
def Reachable (s : List Todo) : Prop := ∃ rs : List Request, run todos rs = s

/-- The request sequence POST, POST, DELETE /todos/1, POST. -/
def collidingRun : List Request :=
  [.create (.ok ⟨0, "a", false⟩), .create (.ok ⟨0, "b", false⟩), .delete 1,
    .create (.ok ⟨0, "c", false⟩)]

/-- Whether the request is routed to `DeleteTodo`. -/
def Request.isDelete : Request → Bool
  | .delete _ => true
  | _ => false

/-- A collection some request sequence without a DELETE produces from the
initial one. -/
def ReachableWithoutDelete (s : List Todo) : Prop :=
  ∃ rs : List Request, (∀ r ∈ rs, r.isDelete = false) ∧ run todos rs = s

/-- `id, _ := strconv.Atoi(c.Param("id"))`: of the pair the standard library's
`strconv.Atoi` returns, the handlers keep the integer and drop the error. -/
def pathID (atoi : Int × Option String) : Int := atoi.1

/-- The id a `CreateTodo` answer carries: that of the todo sent with
`http.StatusCreated`; no other answer carries one. -/
def createdID (r : Response) : Option Int :=
  if r.status = StatusCreated then
    match r.body with
    | .todo t => some t.ID
    | _ => none
  else none

/-! ## The scanning loops -/

/-- A list holding an element with the given id splits at the first such element. -/
theorem exists_first_match (id : Int) (s : List Todo) (h : ∃ t ∈ s, t.ID = id) :
    ∃ pre t post, s = pre ++ t :: post ∧ (∀ x ∈ pre, x.ID ≠ id) ∧ t.ID = id := by
  induction s with
  | nil => simp at h
  | cons a rest ih =>
    by_cases ha : a.ID = id
    · exact ⟨[], a, rest, by simp, by simp, ha⟩
    · have h2 : ∃ t ∈ rest, t.ID = id := by
        obtain ⟨t, ht, hid⟩ := h
        rcases List.mem_cons.mp ht with e | e
        · subst e; exact absurd hid ha
        · exact ⟨t, e, hid⟩
      obtain ⟨pre, t, post, e, hp, ht⟩ := ih h2
      refine ⟨a :: pre, t, post, by simp [e], ?_, ht⟩
      intro x hx
      rcases List.mem_cons.mp hx with e2 | e2
      · subst e2; exact ha
      · exact hp x e2

/-- The lookup loop stops at the first element carrying the id. -/
theorem GetTodoByID_loop_found (id : Int) (pre : List Todo) (t : Todo) (post : List Todo)
    (hp : ∀ x ∈ pre, x.ID ≠ id) (ht : t.ID = id) :
    GetTodoByID.loop id (pre ++ t :: post) = ⟨StatusOK, .todo t⟩ := by
  induction pre with
  | nil => simp [GetTodoByID.loop, ht]
  | cons a pre ih =>
    have ha : a.ID ≠ id := hp a (by simp)
    simp only [List.cons_append, GetTodoByID.loop, if_neg ha]
    exact ih (fun x hx => hp x (List.mem_cons_of_mem _ hx))

/-- The lookup loop falls through when no element carries the id. -/
theorem GetTodoByID_loop_absent (id : Int) (s : List Todo) (hs : ∀ x ∈ s, x.ID ≠ id) :
    GetTodoByID.loop id s = ⟨StatusNotFound, .error "Todo not found"⟩ := by
  induction s with
  | nil => rfl
  | cons a rest ih =>
    have ha : a.ID ≠ id := hs a (by simp)
    simp only [GetTodoByID.loop, if_neg ha]
    exact ih (fun x hx => hs x (List.mem_cons_of_mem _ hx))

/-- Reading the slot right after a prefix yields the element placed there. -/
theorem getElem_at_split (pre : List Todo) (x : Todo) (post : List Todo)
    (h : pre.length < (pre ++ x :: post).length) :
    (pre ++ x :: post)[pre.length] = x := by
  induction pre with
  | nil => rfl
  | cons a pre ih => simpa using ih (by simp)

/-- Writing the slot right after a prefix replaces the element placed there. -/
theorem set_at_split (pre : List Todo) (x y : Todo) (post : List Todo) :
    (pre ++ x :: post).set pre.length y = pre ++ y :: post := by
  induction pre with
  | nil => rfl
  | cons a pre ih => simp [ih]

/-- The update loop, started behind `pre`, rewrites the first element of the
remainder carrying the id and answers with it. -/
theorem UpdateTodo_loop_found (id : Int) (b : Todo) (mid : List Todo) :
    ∀ (pre : List Todo) (t : Todo) (post : List Todo)
      (h : pre.length + (mid ++ t :: post).length = (pre ++ mid ++ t :: post).length),
      (∀ x ∈ mid, x.ID ≠ id) → t.ID = id →
      UpdateTodo.loop (pre ++ mid ++ t :: post) id b pre.length (mid ++ t :: post) h =
        (⟨StatusOK, .todo ⟨t.ID, b.Title, b.Done⟩⟩,
          pre ++ mid ++ ⟨t.ID, b.Title, b.Done⟩ :: post) := by
  induction mid with
  | nil =>
    intro pre t post h _ ht
    simp [UpdateTodo.loop, ht, getElem_at_split, set_at_split]
  | cons a mid ih =>
    intro pre t post h hm ht
    have ha : a.ID ≠ id := hm a (by simp)
    have key := ih (pre ++ [a]) t post (by simp; omega)
      (fun x hx => hm x (List.mem_cons_of_mem _ hx)) ht
    simp only [List.cons_append, UpdateTodo.loop, if_neg ha]
    simp only [List.append_assoc, List.singleton_append, List.length_append,
      List.length_singleton] at key ⊢
    exact key

/-- The update loop falls through, leaving the slice alone, when nothing left
to visit carries the id. -/
theorem UpdateTodo_loop_absent (s : List Todo) (id : Int) (b : Todo) (rest : List Todo) :
    ∀ (i : Nat) (h : i + rest.length = s.length), (∀ x ∈ rest, x.ID ≠ id) →
      UpdateTodo.loop s id b i rest h = (⟨StatusNotFound, .error "Todo not found"⟩, s) := by
  induction rest with
  | nil => intro i h _; rfl
  | cons a rest ih =>
    intro i h hr
    have ha : a.ID ≠ id := hr a (by simp)
    simp only [UpdateTodo.loop, if_neg ha]
    exact ih (i + 1) _ (fun x hx => hr x (List.mem_cons_of_mem _ hx))

/-- Cutting out the slot right after a prefix joins the prefix to the tail. -/
theorem take_drop_at_split (pre : List Todo) (x : Todo) (post : List Todo) :
    (pre ++ x :: post).take pre.length ++ (pre ++ x :: post).drop (pre.length + 1)
      = pre ++ post := by
  induction pre with
  | nil => rfl
  | cons a pre ih => simp

/-- The delete loop, started behind `pre`, cuts out the first element of the
remainder carrying the id. -/
theorem DeleteTodo_loop_found (id : Int) (mid : List Todo) :
    ∀ (pre : List Todo) (t : Todo) (post : List Todo),
      (∀ x ∈ mid, x.ID ≠ id) → t.ID = id →
      DeleteTodo.loop (pre ++ mid ++ t :: post) id pre.length (mid ++ t :: post) =
        (⟨StatusOK, .message "Deleted"⟩, pre ++ mid ++ post) := by
  induction mid with
  | nil =>
    intro pre t post _ ht
    simp only [List.append_nil, List.nil_append, DeleteTodo.loop, if_pos ht,
      take_drop_at_split]
  | cons a mid ih =>
    intro pre t post hm ht
    have ha : a.ID ≠ id := hm a (by simp)
    have key := ih (pre ++ [a]) t post (fun x hx => hm x (List.mem_cons_of_mem _ hx)) ht
    simp only [List.cons_append, DeleteTodo.loop, if_neg ha]
    simp only [List.append_assoc, List.singleton_append, List.length_append,
      List.length_singleton] at key ⊢
    exact key

/-- The delete loop falls through, leaving the slice alone, when nothing left
to visit carries the id. -/
theorem DeleteTodo_loop_absent (s : List Todo) (id : Int) (rest : List Todo) :
    ∀ (i : Nat), (∀ x ∈ rest, x.ID ≠ id) →
      DeleteTodo.loop s id i rest = (⟨StatusNotFound, .error "Todo not found"⟩, s) := by
  induction rest with
  | nil => intro i _; rfl
  | cons a rest ih =>
    intro i hr
    have ha : a.ID ≠ id := hr a (by simp)
    simp only [DeleteTodo.loop, if_neg ha]
    exact ih (i + 1) (fun x hx => hr x (List.mem_cons_of_mem _ hx))

/-- What `UpdateTodo` does at the first element carrying the requested id. -/
theorem UpdateTodo_at_first_match (id : Int) (b : Todo) (pre : List Todo) (t : Todo)
    (post : List Todo) (hp : ∀ x ∈ pre, x.ID ≠ id) (ht : t.ID = id) :
    UpdateTodo (pre ++ t :: post) id (.ok b) =
      (⟨StatusOK, .todo ⟨t.ID, b.Title, b.Done⟩⟩, pre ++ ⟨t.ID, b.Title, b.Done⟩ :: post) := by
  have key := UpdateTodo_loop_found id b pre [] t post (by simp) hp ht
  simpa [UpdateTodo] using key

/-- What `DeleteTodo` does at the first element carrying the requested id. -/
theorem DeleteTodo_at_first_match (id : Int) (pre : List Todo) (t : Todo)
    (post : List Todo) (hp : ∀ x ∈ pre, x.ID ≠ id) (ht : t.ID = id) :
    DeleteTodo (pre ++ t :: post) id = (⟨StatusOK, .message "Deleted"⟩, pre ++ post) := by
  have key := DeleteTodo_loop_found id pre [] t post hp ht
  simpa [DeleteTodo] using key

/-! ## The handlers and the request runs -/

/-- C1 (fails on the code): serving POST, POST, DELETE /todos/1, POST from the
empty collection reaches a collection whose two stored todos both carry id 2, so
the ids of a reachable collection are not always pairwise distinct. -/
theorem reachable_ids_collide :
    run todos collidingRun = [⟨2, "b", false⟩, ⟨2, "c", false⟩] ∧
      Reachable [⟨2, "b", false⟩, ⟨2, "c", false⟩] ∧
      ¬ (∀ s : List Todo, Reachable s → (s.map Todo.ID).Nodup) := by
  have hrun : run todos collidingRun = [⟨2, "b", false⟩, ⟨2, "c", false⟩] := by decide
  refine ⟨hrun, ⟨collidingRun, hrun⟩, ?_⟩
  intro hall
  have hnd := hall _ ⟨collidingRun, hrun⟩
  revert hnd
  decide

/-- C2: when some stored todo carries the id, `DeleteTodo` answers
200 with message "Deleted" and the new collection is the old one without
the first todo carrying that id: what stood before it and after it is kept in
order, and the length drops by exactly one. -/
theorem DeleteTodo_removes_first_match (s : List Todo) (id : Int)
    (h : ∃ t ∈ s, t.ID = id) :
    (DeleteTodo s id).1 = ⟨200, .message "Deleted"⟩ ∧
      ∃ pre t post, s = pre ++ t :: post ∧ (∀ x ∈ pre, x.ID ≠ id) ∧ t.ID = id ∧
        (DeleteTodo s id).2 = pre ++ post ∧
        (DeleteTodo s id).2.length + 1 = s.length := by
  obtain ⟨pre, t, post, e, hp, ht⟩ := exists_first_match id s h
  have key := DeleteTodo_at_first_match id pre t post hp ht
  subst e
  refine ⟨by rw [key]; rfl, pre, t, post, rfl, hp, ht, by rw [key], ?_⟩
  rw [key]
  simp
  omega

/-- Deleting id 2 from the ids 1, 2, 3 leaves 1, 3. -/
theorem DeleteTodo_removes_first_match_witness :
    (∃ t ∈ [(⟨1, "a", false⟩ : Todo), ⟨2, "b", true⟩, ⟨3, "c", false⟩], t.ID = 2) ∧
      (DeleteTodo [⟨1, "a", false⟩, ⟨2, "b", true⟩, ⟨3, "c", false⟩] 2).1
        = ⟨200, .message "Deleted"⟩ ∧
      (DeleteTodo [⟨1, "a", false⟩, ⟨2, "b", true⟩, ⟨3, "c", false⟩] 2).2
        = [⟨1, "a", false⟩, ⟨3, "c", false⟩] :=
  ⟨⟨⟨2, "b", true⟩, by decide, rfl⟩,
    (DeleteTodo_removes_first_match [⟨1, "a", false⟩, ⟨2, "b", true⟩, ⟨3, "c", false⟩] 2
      ⟨⟨2, "b", true⟩, by decide, rfl⟩).1,
    by decide⟩

/-- C3: for a decoded body, `CreateTodo` answers 201 with the body's title and
done under the id `len(todos) + 1`, whatever id the body carried, and the new
collection is the old one with exactly that todo appended. -/
theorem CreateTodo_appends_with_fresh_length_id (s : List Todo) (b : Todo) :
    CreateTodo s (.ok b) =
      (⟨201, .todo ⟨(s.length : Int) + 1, b.Title, b.Done⟩⟩,
        s ++ [⟨(s.length : Int) + 1, b.Title, b.Done⟩]) := rfl

/-- C4: `GetTodoByID` answers 200 with the first todo, in collection order,
carrying the requested id when there is one, answers
404 with error "Todo not found" exactly when no stored todo carries it, and
never changes the collection. -/
theorem GetTodoByID_first_match_or_not_found (s : List Todo) (id : Int) :
    ((∃ t ∈ s, t.ID = id) →
        ∃ pre t post, s = pre ++ t :: post ∧ (∀ x ∈ pre, x.ID ≠ id) ∧ t.ID = id ∧
          (GetTodoByID s id).1 = ⟨200, .todo t⟩) ∧
      ((GetTodoByID s id).1 = ⟨404, .error "Todo not found"⟩ ↔ ∀ t ∈ s, t.ID ≠ id) ∧
      (GetTodoByID s id).2 = s := by
  have found : (∃ t ∈ s, t.ID = id) →
      ∃ pre t post, s = pre ++ t :: post ∧ (∀ x ∈ pre, x.ID ≠ id) ∧ t.ID = id ∧
        (GetTodoByID s id).1 = ⟨200, .todo t⟩ := by
    intro h
    obtain ⟨pre, t, post, e, hp, ht⟩ := exists_first_match id s h
    refine ⟨pre, t, post, e, hp, ht, ?_⟩
    subst e
    exact GetTodoByID_loop_found id pre t post hp ht
  refine ⟨found, ⟨?_, ?_⟩, rfl⟩
  · intro h404 t hmem hid
    obtain ⟨_, t2, _, _, _, _, h200⟩ := found ⟨t, hmem, hid⟩
    rw [h200] at h404
    exact absurd h404 (by simp)
  · intro hs
    exact GetTodoByID_loop_absent id s hs

/-- C5: for an id some stored todo carries and a decoded body, `UpdateTodo`
rewrites only the title and done of the first todo carrying that id, to the
body's values: that todo keeps its id (the body's id is ignored), every other
position holds what it held, and length and order are as before. -/
theorem UpdateTodo_changes_only_first_match (s : List Todo) (id : Int) (b : Todo)
    (h : ∃ t ∈ s, t.ID = id) :
    ∃ pre t post, s = pre ++ t :: post ∧ (∀ x ∈ pre, x.ID ≠ id) ∧ t.ID = id ∧
      (UpdateTodo s id (.ok b)).2 = pre ++ ⟨t.ID, b.Title, b.Done⟩ :: post ∧
      (∀ j, j ≠ pre.length → (UpdateTodo s id (.ok b)).2[j]? = s[j]?) ∧
      (UpdateTodo s id (.ok b)).2.length = s.length ∧
      (UpdateTodo s id (.ok b)).2.map Todo.ID = s.map Todo.ID := by
  obtain ⟨pre, t, post, e, hp, ht⟩ := exists_first_match id s h
  have key := UpdateTodo_at_first_match id b pre t post hp ht
  subst e
  refine ⟨pre, t, post, rfl, hp, ht, by rw [key], ?_, by rw [key]; simp, by rw [key]; simp⟩
  intro j hj
  rw [key]
  show (pre ++ ⟨t.ID, b.Title, b.Done⟩ :: post)[j]? = (pre ++ t :: post)[j]?
  rcases Nat.lt_or_ge j pre.length with hlt | hge
  · rw [List.getElem?_append_left hlt, List.getElem?_append_left hlt]
  · rw [List.getElem?_append_right hge, List.getElem?_append_right hge]
    have hpos : 0 < j - pre.length := by omega
    obtain ⟨k, hk⟩ : ∃ k, j - pre.length = k + 1 := ⟨j - pre.length - 1, by omega⟩
    rw [hk]
    rfl

/-- Updating id 2 where two todos carry it rewrites the first one only. -/
theorem UpdateTodo_changes_only_first_match_witness :
    (∃ t ∈ [(⟨1, "a", false⟩ : Todo), ⟨2, "b", false⟩, ⟨2, "c", false⟩], t.ID = 2) ∧
      (UpdateTodo [⟨1, "a", false⟩, ⟨2, "b", false⟩, ⟨2, "c", false⟩] 2
          (.ok ⟨9, "z", true⟩)).2
        = [⟨1, "a", false⟩, ⟨2, "z", true⟩, ⟨2, "c", false⟩] ∧
      ∃ pre t post,
        [(⟨1, "a", false⟩ : Todo), ⟨2, "b", false⟩, ⟨2, "c", false⟩] = pre ++ t :: post ∧
        (UpdateTodo [⟨1, "a", false⟩, ⟨2, "b", false⟩, ⟨2, "c", false⟩] 2
            (.ok ⟨9, "z", true⟩)).2 = pre ++ ⟨t.ID, "z", true⟩ :: post := by
  refine ⟨⟨⟨2, "b", false⟩, by decide, rfl⟩, by decide, ?_⟩
  obtain ⟨pre, t, post, e, _, _, hnew, _⟩ :=
    UpdateTodo_changes_only_first_match
      [⟨1, "a", false⟩, ⟨2, "b", false⟩, ⟨2, "c", false⟩] 2 ⟨9, "z", true⟩
      ⟨⟨2, "b", false⟩, by decide, rfl⟩
  exact ⟨pre, t, post, e, hnew⟩

/-- C6: for an id some stored todo carries and a decoded body, `UpdateTodo`
answers 200 with the requested id and the body's title and done, and that
answer is the todo now stored at the matched position; after creating id 1,
updating it with title "b", done true answers id 1, title "b", done true. -/
theorem UpdateTodo_answers_stored_todo (s : List Todo) (id : Int) (b : Todo)
    (h : ∃ t ∈ s, t.ID = id) :
    (UpdateTodo s id (.ok b)).1 = ⟨200, .todo ⟨id, b.Title, b.Done⟩⟩ ∧
      (∃ pre t post, s = pre ++ t :: post ∧ (∀ x ∈ pre, x.ID ≠ id) ∧ t.ID = id ∧
        (UpdateTodo s id (.ok b)).2[pre.length]? = some ⟨id, b.Title, b.Done⟩) ∧
      (∀ (a : Todo) (k : Int),
        (UpdateTodo (CreateTodo todos (.ok a)).2 1 (.ok ⟨k, "b", true⟩)).1
          = ⟨200, .todo ⟨1, "b", true⟩⟩) := by
  obtain ⟨pre, t, post, e, hp, ht⟩ := exists_first_match id s h
  have key := UpdateTodo_at_first_match id b pre t post hp ht
  subst e
  refine ⟨by rw [key, ht]; rfl, ⟨pre, t, post, rfl, hp, ht, ?_⟩, ?_⟩
  · rw [key, ht]
    simp [getElem_at_split]
  · intro a k
    rfl

/-- The update of the todo created first on the empty collection. -/
theorem UpdateTodo_answers_stored_todo_witness :
    (∃ t ∈ (CreateTodo todos (.ok ⟨0, "a", false⟩)).2, t.ID = 1) ∧
      (UpdateTodo (CreateTodo todos (.ok ⟨0, "a", false⟩)).2 1 (.ok ⟨0, "b", true⟩)).1
        = ⟨200, .todo ⟨1, "b", true⟩⟩ :=
  ⟨⟨⟨1, "a", false⟩, by decide, rfl⟩,
    (UpdateTodo_answers_stored_todo (CreateTodo todos (.ok ⟨0, "a", false⟩)).2 1
      ⟨0, "b", true⟩ ⟨⟨1, "a", false⟩, by decide, rfl⟩).1⟩

/-- C7 (fails on the code): in the collection reached by POST, POST,
DELETE /todos/1, POST, id 2 is present and `DeleteTodo` on 2 answers 200, yet
the following `GetTodoByID` on 2 answers 200 with the second todo of id 2
instead of Not-Found. -/
theorem get_after_delete_still_found :
    Reachable [⟨2, "b", false⟩, ⟨2, "c", false⟩] ∧
      (∃ t ∈ [(⟨2, "b", false⟩ : Todo), ⟨2, "c", false⟩], t.ID = 2) ∧
      (DeleteTodo [⟨2, "b", false⟩, ⟨2, "c", false⟩] 2).1 = ⟨200, .message "Deleted"⟩ ∧
      (GetTodoByID (DeleteTodo [⟨2, "b", false⟩, ⟨2, "c", false⟩] 2).2 2).1
        = ⟨200, .todo ⟨2, "c", false⟩⟩ ∧
      (GetTodoByID (DeleteTodo [⟨2, "b", false⟩, ⟨2, "c", false⟩] 2).2 2).1
        ≠ ⟨404, .error "Todo not found"⟩ :=
  ⟨⟨[.create (.ok ⟨0, "a", false⟩), .create (.ok ⟨0, "b", false⟩), .delete 1,
      .create (.ok ⟨0, "c", false⟩)], by decide⟩,
    ⟨⟨2, "b", false⟩, by decide, rfl⟩, by decide, by decide, by decide⟩

/-- C8: when the body cannot be decoded, `CreateTodo` answers 400 and keeps the
collection, and `UpdateTodo` answers 400 and keeps the collection for every
requested id, present or not; the answer is never 404. -/
theorem undecodable_body_is_bad_request (s : List Todo) (err : String) :
    CreateTodo s (.error err) = (⟨400, .error err⟩, s) ∧
      ∀ id : Int, UpdateTodo s id (.error err) = (⟨400, .error err⟩, s) ∧
        (UpdateTodo s id (.error err)).1.status ≠ 404 := by
  refine ⟨rfl, fun id => ⟨rfl, ?_⟩⟩
  show (400 : Nat) ≠ 404
  decide

/-- C9: `DeleteTodo` answers 404 with error "Todo not found" exactly when no
stored todo carries the id, and then the collection is what it was. -/
theorem DeleteTodo_not_found_iff_absent (s : List Todo) (id : Int) :
    ((DeleteTodo s id).1 = ⟨404, .error "Todo not found"⟩ ↔ ∀ t ∈ s, t.ID ≠ id) ∧
      ((∀ t ∈ s, t.ID ≠ id) → (DeleteTodo s id).2 = s) := by
  have absent : (∀ t ∈ s, t.ID ≠ id) →
      DeleteTodo s id = (⟨StatusNotFound, .error "Todo not found"⟩, s) :=
    fun hs => DeleteTodo_loop_absent s id s 0 hs
  refine ⟨⟨?_, fun hs => by rw [absent hs]; rfl⟩, fun hs => by rw [absent hs]⟩
  intro h404 t hmem hid
  obtain ⟨pre, t2, post, e, hp, ht⟩ := exists_first_match id s ⟨t, hmem, hid⟩
  subst e
  rw [DeleteTodo_at_first_match id pre t2 post hp ht] at h404
  exact absurd h404 (by simp [StatusOK])

/-- C10: for a decoded body, `UpdateTodo` answers 404 with error
"Todo not found" exactly when no stored todo carries the id, and then the
collection is what it was: nothing is created or altered. -/
theorem UpdateTodo_not_found_iff_absent (s : List Todo) (id : Int) (b : Todo) :
    ((UpdateTodo s id (.ok b)).1 = ⟨404, .error "Todo not found"⟩ ↔ ∀ t ∈ s, t.ID ≠ id) ∧
      ((∀ t ∈ s, t.ID ≠ id) → (UpdateTodo s id (.ok b)).2 = s) := by
  have absent : (∀ t ∈ s, t.ID ≠ id) →
      UpdateTodo s id (.ok b) = (⟨StatusNotFound, .error "Todo not found"⟩, s) :=
    fun hs => UpdateTodo_loop_absent s id b s 0 _ hs
  refine ⟨⟨?_, fun hs => by rw [absent hs]; rfl⟩, fun hs => by rw [absent hs]⟩
  intro h404 t hmem hid
  obtain ⟨pre, t2, post, e, hp, ht⟩ := exists_first_match id s ⟨t, hmem, hid⟩
  subst e
  rw [UpdateTodo_at_first_match id b pre t2 post hp ht] at h404
  exact absurd h404 (by simp [StatusOK])

/-- With pairwise distinct ids, the id just deleted is gone: the following
lookup of it answers Not-Found. -/
theorem get_after_delete_not_found_of_nodup (s : List Todo) (id : Int)
    (hnd : (s.map Todo.ID).Nodup) (h : ∃ t ∈ s, t.ID = id) :
    (GetTodoByID (DeleteTodo s id).2 id).1 = ⟨404, .error "Todo not found"⟩ := by
  obtain ⟨pre, t, post, e, hp, ht⟩ := exists_first_match id s h
  subst e
  rw [DeleteTodo_at_first_match id pre t post hp ht]
  apply GetTodoByID_loop_absent
  intro x hx hid
  rcases List.mem_append.mp hx with hx | hx
  · exact hp x hx hid
  · rw [List.map_append, List.map_cons] at hnd
    have hnot : t.ID ∉ post.map Todo.ID :=
      (List.nodup_cons.mp (List.nodup_append.mp hnd).2.1).1
    exact hnot (List.mem_map.mpr ⟨x, hx, by rw [hid, ht]⟩)

/-! ## Invariants of the request runs -/

/-- A lookup answers 200 with some todo exactly when a stored todo carries the id. -/
theorem GetTodoByID_ok_iff_present (s : List Todo) (k : Int) :
    (∃ t, (GetTodoByID s k).1 = ⟨200, .todo t⟩) ↔ ∃ t ∈ s, t.ID = k := by
  constructor
  · rintro ⟨t, h200⟩
    by_contra hno
    have habs : ∀ x ∈ s, x.ID ≠ k := fun x hx hid => hno ⟨x, hx, hid⟩
    have h404 : (GetTodoByID s k).1 = ⟨StatusNotFound, .error "Todo not found"⟩ :=
      GetTodoByID_loop_absent k s habs
    rw [h404] at h200
    exact absurd h200 (by simp [StatusNotFound])
  · intro h
    obtain ⟨pre, t, post, e, hp, ht⟩ := exists_first_match k s h
    subst e
    exact ⟨t, GetTodoByID_loop_found k pre t post hp ht⟩

/-- An update, whatever it answers, leaves the id at every position as it was. -/
theorem UpdateTodo_keeps_ids (s : List Todo) (id : Int) (body : Except String Todo) :
    (UpdateTodo s id body).2.map Todo.ID = s.map Todo.ID := by
  cases body with
  | error err => rfl
  | ok b =>
    by_cases h : ∃ t ∈ s, t.ID = id
    · obtain ⟨pre, t, post, e, hp, ht⟩ := exists_first_match id s h
      subst e
      rw [UpdateTodo_at_first_match id b pre t post hp ht]
      simp
    · have habs : ∀ x ∈ s, x.ID ≠ id := fun x hx hid => h ⟨x, hx, hid⟩
      have key : UpdateTodo s id (.ok b) = (⟨StatusNotFound, .error "Todo not found"⟩, s) :=
        UpdateTodo_loop_absent s id b s 0 _ habs
      rw [key]

/-- A delete either leaves the collection alone or cuts one element out of it. -/
theorem DeleteTodo_keeps_or_cuts (s : List Todo) (id : Int) :
    (DeleteTodo s id).2 = s ∨
      ∃ pre t post, s = pre ++ t :: post ∧ (DeleteTodo s id).2 = pre ++ post := by
  by_cases h : ∃ t ∈ s, t.ID = id
  · obtain ⟨pre, t, post, e, hp, ht⟩ := exists_first_match id s h
    subst e
    exact Or.inr ⟨pre, t, post, rfl, by rw [DeleteTodo_at_first_match id pre t post hp ht]⟩
  · have habs : ∀ x ∈ s, x.ID ≠ id := fun x hx hid => h ⟨x, hx, hid⟩
    have key : DeleteTodo s id = (⟨StatusNotFound, .error "Todo not found"⟩, s) :=
      DeleteTodo_loop_absent s id s 0 habs
    exact Or.inl (by rw [key])

/-- A create extends the id list by the old length plus one, or leaves it alone. -/
theorem CreateTodo_ids (s : List Todo) (body : Except String Todo) :
    (CreateTodo s body).2.map Todo.ID = s.map Todo.ID ∨
      (CreateTodo s body).2.map Todo.ID = s.map Todo.ID ++ [(s.length : Int) + 1] := by
  cases body with
  | error err => exact Or.inl rfl
  | ok b => exact Or.inr (by simp [CreateTodo])

/-- Without a DELETE, one request keeps "the id at position i, counted from 1,
is i". -/
theorem handle_keeps_position_ids (s : List Todo) (r : Request)
    (hr : r.isDelete = false)
    (hs : s.map Todo.ID = (List.range s.length).map (fun i : Nat => (i : Int) + 1)) :
    (handle s r).2.map Todo.ID =
      (List.range (handle s r).2.length).map (fun i : Nat => (i : Int) + 1) := by
  cases r with
  | list => exact hs
  | get id => exact hs
  | create body =>
    cases body with
    | error err => exact hs
    | ok b =>
      show (s ++ [_]).map Todo.ID = (List.range (s ++ [_]).length).map _
      rw [List.map_append, List.length_append, List.length_singleton, List.range_succ,
        List.map_append, ← hs]
      rfl
  | update id body =>
    have hids := UpdateTodo_keeps_ids s id body
    have hlen : (UpdateTodo s id body).2.length = s.length := by
      have := congrArg List.length hids
      simpa using this
    show (UpdateTodo s id body).2.map Todo.ID = _
    rw [hids, hs]
    show _ = (List.range (UpdateTodo s id body).2.length).map _
    rw [hlen]
  | delete id => simp [Request.isDelete] at hr

/-- Without a DELETE, a whole run keeps "the id at position i is i". -/
theorem run_keeps_position_ids (rs : List Request) :
    ∀ s : List Todo, (∀ r ∈ rs, r.isDelete = false) →
      s.map Todo.ID = (List.range s.length).map (fun i : Nat => (i : Int) + 1) →
      (run s rs).map Todo.ID =
        (List.range (run s rs).length).map (fun i : Nat => (i : Int) + 1) := by
  induction rs with
  | nil => intro s _ hs; exact hs
  | cons r rs ih =>
    intro s hrs hs
    exact ih (handle s r).2 (fun q hq => hrs q (List.mem_cons_of_mem _ hq))
      (handle_keeps_position_ids s r (hrs r (List.mem_cons_self _ _)) hs)

/-- The ids of a collection reached without a DELETE are 1, 2, ..., length. -/
theorem position_ids_of_reachableWithoutDelete (s : List Todo)
    (h : ReachableWithoutDelete s) :
    s.map Todo.ID = (List.range s.length).map (fun i : Nat => (i : Int) + 1) := by
  obtain ⟨rs, hrs, e⟩ := h
  subst e
  exact run_keeps_position_ids rs todos hrs rfl

/-- In a collection whose ids are 1, 2, ..., length, some todo carries `k`
exactly when `k` lies between 1 and the length. -/
theorem present_iff_in_range (s : List Todo) (k : Int)
    (hs : s.map Todo.ID = (List.range s.length).map (fun i : Nat => (i : Int) + 1)) :
    (∃ t ∈ s, t.ID = k) ↔ (1 ≤ k ∧ k ≤ (s.length : Int)) := by
  have hmem : (∃ t ∈ s, t.ID = k) ↔ k ∈ s.map Todo.ID := by
    simp [List.mem_map]
  rw [hmem, hs, List.mem_map]
  constructor
  · rintro ⟨i, hi, e⟩
    have := List.mem_range.mp hi
    omega
  · rintro ⟨h1, h2⟩
    refine ⟨(k - 1).toNat, List.mem_range.mpr ?_, ?_⟩ <;> omega

/-- Appending `n + 1` to `n` ids that each exceed their 0-based index keeps
that property. -/
theorem ids_above_append (l : List Int)
    (hl : ∀ (i : Nat) (x : Int), l[i]? = some x → (i : Int) + 1 ≤ x) :
    ∀ (i : Nat) (x : Int), (l ++ [(l.length : Int) + 1])[i]? = some x → (i : Int) + 1 ≤ x := by
  intro i x hx
  rcases Nat.lt_or_ge i l.length with hlt | hge
  · rw [List.getElem?_append_left hlt] at hx
    exact hl i x hx
  · rw [List.getElem?_append_right hge] at hx
    rcases Nat.eq_zero_or_pos (i - l.length) with h0 | hpos
    · rw [h0] at hx
      simp at hx
      omega
    · obtain ⟨k, hk⟩ : ∃ k, i - l.length = k + 1 := ⟨i - l.length - 1, by omega⟩
      rw [hk] at hx
      simp at hx

/-- Cutting one id out of ids that each exceed their 0-based index keeps that
property: what follows the cut moves one place down. -/
theorem ids_above_cut (p : List Int) (a : Int) (q : List Int)
    (hl : ∀ (i : Nat) (x : Int), (p ++ a :: q)[i]? = some x → (i : Int) + 1 ≤ x) :
    ∀ (i : Nat) (x : Int), (p ++ q)[i]? = some x → (i : Int) + 1 ≤ x := by
  intro i x hx
  rcases Nat.lt_or_ge i p.length with hlt | hge
  · rw [List.getElem?_append_left hlt] at hx
    exact hl i x (by rw [List.getElem?_append_left hlt]; exact hx)
  · rw [List.getElem?_append_right hge] at hx
    have hnext : (p ++ a :: q)[i + 1]? = some x := by
      rw [List.getElem?_append_right (by omega)]
      have e : i + 1 - p.length = (i - p.length) + 1 := by omega
      rw [e, List.getElem?_cons_succ]
      exact hx
    have := hl (i + 1) x hnext
    push_cast at this
    omega

/-- One request, of any of the five kinds, keeps "the id at 0-based index i is
at least i + 1". -/
theorem handle_keeps_ids_above (s : List Todo) (r : Request)
    (hs : ∀ (i : Nat) (x : Int), (s.map Todo.ID)[i]? = some x → (i : Int) + 1 ≤ x) :
    ∀ (i : Nat) (x : Int), ((handle s r).2.map Todo.ID)[i]? = some x → (i : Int) + 1 ≤ x := by
  cases r with
  | list => exact hs
  | get id => exact hs
  | create body =>
    show ∀ (i : Nat) (x : Int), ((CreateTodo s body).2.map Todo.ID)[i]? = some x → _
    rcases CreateTodo_ids s body with e | e
    · rw [e]; exact hs
    · rw [e]
      have := ids_above_append (s.map Todo.ID) hs
      simpa using this
  | update id body =>
    show ∀ (i : Nat) (x : Int), ((UpdateTodo s id body).2.map Todo.ID)[i]? = some x → _
    rw [UpdateTodo_keeps_ids]
    exact hs
  | delete id =>
    show ∀ (i : Nat) (x : Int), ((DeleteTodo s id).2.map Todo.ID)[i]? = some x → _
    rcases DeleteTodo_keeps_or_cuts s id with e | ⟨pre, t, post, e, e2⟩
    · rw [e]; exact hs
    · rw [e2, List.map_append]
      subst e
      rw [List.map_append, List.map_cons] at hs
      exact ids_above_cut _ _ _ hs

/-- A whole run keeps "the id at 0-based index i is at least i + 1". -/
theorem run_keeps_ids_above (rs : List Request) :
    ∀ s : List Todo,
      (∀ (i : Nat) (x : Int), (s.map Todo.ID)[i]? = some x → (i : Int) + 1 ≤ x) →
      ∀ (i : Nat) (x : Int), ((run s rs).map Todo.ID)[i]? = some x → (i : Int) + 1 ≤ x := by
  induction rs with
  | nil => intro s hs; exact hs
  | cons r rs ih =>
    intro s hs
    exact ih (handle s r).2 (handle_keeps_ids_above s r hs)

/-- In every reachable collection the id at 0-based index i is at least i + 1. -/
theorem ids_above_of_reachable (s : List Todo) (h : Reachable s) :
    ∀ (i : Nat) (hi : i < s.length), (i : Int) + 1 ≤ (s.get ⟨i, hi⟩).ID := by
  obtain ⟨rs, e⟩ := h
  subst e
  intro i hi
  have key := run_keeps_ids_above rs todos (by intro i x hx; simp [todos] at hx) i
    ((run todos rs).get ⟨i, hi⟩).ID
  apply key
  simp [List.getElem?_eq_getElem hi]

/-! ## Creation ids, listing and idempotence -/

/-- C11: from the empty collection, the first `CreateTodo` with a decoded body
answers a todo with id 1 and the second one a todo with id 2, whatever titles,
done flags and ids the two bodies carry. -/
theorem first_two_creates_answer_ids_one_and_two (a b : Todo) :
    (CreateTodo todos (.ok a)).1 = ⟨201, .todo ⟨1, a.Title, a.Done⟩⟩ ∧
      (CreateTodo (CreateTodo todos (.ok a)).2 (.ok b)).1
        = ⟨201, .todo ⟨2, b.Title, b.Done⟩⟩ :=
  ⟨rfl, rfl⟩

/-- C12 (fails on the code): serving POST, POST, DELETE /todos/1, POST from the
empty collection, the three creates answer the ids 1, 2, 2: the last one is not
strictly greater than the one before it, so the ids handed out in a run are not
always increasing. -/
theorem created_ids_repeat_after_delete :
    (responses todos collidingRun).filterMap createdID = [1, 2, 2] ∧
      ¬ (∀ rs : List Request,
          ((responses todos rs).filterMap createdID).Pairwise (fun x y => x < y)) := by
  have hids : (responses todos collidingRun).filterMap createdID = [1, 2, 2] := by decide
  refine ⟨hids, ?_⟩
  intro hall
  have hp := hall collidingRun
  rw [hids] at hp
  revert hp
  decide

/-- C13: two creates on the empty collection give the todos with ids 1 and 2;
deleting id 1 and creating again answers a new todo with id 2, and the
collection then holds two todos that both carry id 2. -/
theorem delete_then_create_duplicates_id (a b c : Todo) :
    (CreateTodo (CreateTodo todos (.ok a)).2 (.ok b)).2
        = [⟨1, a.Title, a.Done⟩, ⟨2, b.Title, b.Done⟩] ∧
      DeleteTodo [⟨1, a.Title, a.Done⟩, ⟨2, b.Title, b.Done⟩] 1
        = (⟨200, .message "Deleted"⟩, [⟨2, b.Title, b.Done⟩]) ∧
      CreateTodo [⟨2, b.Title, b.Done⟩] (.ok c)
        = (⟨201, .todo ⟨2, c.Title, c.Done⟩⟩,
            [⟨2, b.Title, b.Done⟩, ⟨2, c.Title, c.Done⟩]) ∧
      run todos [.create (.ok a), .create (.ok b), .delete 1, .create (.ok c)]
        = [⟨2, b.Title, b.Done⟩, ⟨2, c.Title, c.Done⟩] ∧
      (run todos [.create (.ok a), .create (.ok b), .delete 1, .create (.ok c)]).map Todo.ID
        = [2, 2] :=
  ⟨rfl, rfl, rfl, rfl, rfl⟩

/-- C14: `GetTodos` answers 200 with the whole collection, every element in
collection order, and leaves the collection as it was; on the initial
collection the answered sequence is empty. -/
theorem GetTodos_answers_whole_collection (s : List Todo) :
    GetTodos s = (⟨200, .todoList s⟩, s) ∧ GetTodos todos = (⟨200, .todoList []⟩, []) :=
  ⟨rfl, rfl⟩

/-- C15: in a collection reached from the empty one by list, get, create and
update requests only, the todo at position i, counted from 1, has id i; so the
ids are pairwise distinct, and `GetTodoByID` on k answers 200 with a todo
exactly when k lies between 1 and the length of the collection. -/
theorem ids_are_positions_without_delete (s : List Todo) (h : ReachableWithoutDelete s) :
    (∀ (i : Nat) (hi : i < s.length), (s.get ⟨i, hi⟩).ID = (i : Int) + 1) ∧
      (s.map Todo.ID).Nodup ∧
      ∀ k : Int, (∃ t, (GetTodoByID s k).1 = ⟨200, .todo t⟩) ↔
        (1 ≤ k ∧ k ≤ (s.length : Int)) := by
  have hs := position_ids_of_reachableWithoutDelete s h
  refine ⟨?_, ?_, ?_⟩
  · intro i hi
    have e := congrArg (fun l : List Int => l[i]?) hs
    simp only [List.getElem?_map, List.getElem?_range hi,
      List.getElem?_eq_getElem hi, Option.map_some'] at e
    exact Option.some.inj e
  · rw [hs]
    refine (List.nodup_range s.length).map ?_
    intro x y hxy
    have : (x : Int) + 1 = (y : Int) + 1 := hxy
    omega
  · intro k
    rw [GetTodoByID_ok_iff_present]
    exact present_iff_in_range s k hs

/-- After two creates and an update, ids 1 and 2 sit at positions 1 and 2. -/
theorem ids_are_positions_without_delete_witness :
    ReachableWithoutDelete [⟨1, "z", true⟩, ⟨2, "b", false⟩] ∧
      ([(⟨1, "z", true⟩ : Todo), ⟨2, "b", false⟩].map Todo.ID).Nodup ∧
      ((∃ t, (GetTodoByID [⟨1, "z", true⟩, ⟨2, "b", false⟩] 2).1 = ⟨200, .todo t⟩) ↔
        ((1 : Int) ≤ 2 ∧ (2 : Int) ≤ ([(⟨1, "z", true⟩ : Todo), ⟨2, "b", false⟩].length : Int))) := by
  have hr : ReachableWithoutDelete [⟨1, "z", true⟩, ⟨2, "b", false⟩] :=
    ⟨[.create (.ok ⟨0, "a", false⟩), .create (.ok ⟨7, "b", false⟩),
        .update 1 (.ok ⟨5, "z", true⟩), .get 2, .list],
      by decide, by decide⟩
  have key := ids_are_positions_without_delete _ hr
  exact ⟨hr, key.2.1, key.2.2 2⟩

/-- C16: in every reachable collection the todo at 0-based index i has id at
least i + 1, so every stored id is at least 1; hence a request whose path id is
0, the integer kept when the parse error is dropped, gets Not-Found from
`GetTodoByID`, from `DeleteTodo` and from `UpdateTodo` with a decoded body, and
the collection stays as it was. -/
theorem reachable_ids_positive_so_zero_not_found (s : List Todo) (h : Reachable s) :
    (∀ (i : Nat) (hi : i < s.length), (i : Int) + 1 ≤ (s.get ⟨i, hi⟩).ID) ∧
      (∀ t ∈ s, 1 ≤ t.ID) ∧
      ∀ (err : Option String) (b : Todo),
        GetTodoByID s (pathID (0, err)) = (⟨404, .error "Todo not found"⟩, s) ∧
        DeleteTodo s (pathID (0, err)) = (⟨404, .error "Todo not found"⟩, s) ∧
        UpdateTodo s (pathID (0, err)) (.ok b) = (⟨404, .error "Todo not found"⟩, s) := by
  have habove := ids_above_of_reachable s h
  have hpos : ∀ t ∈ s, 1 ≤ t.ID := by
    intro t ht
    obtain ⟨n, hn⟩ := List.get_of_mem ht
    have hle : ((n.1 : Nat) : Int) + 1 ≤ (s.get n).ID := habove n.1 n.2
    rw [← hn]
    omega
  have hzero : ∀ t ∈ s, t.ID ≠ 0 := by
    intro t ht h0
    have := hpos t ht
    omega
  refine ⟨habove, hpos, fun err b => ⟨?_, ?_, ?_⟩⟩
  · show (GetTodoByID.loop 0 s, s) = _
    rw [GetTodoByID_loop_absent 0 s hzero]
    rfl
  · exact DeleteTodo_loop_absent s 0 s 0 hzero
  · exact UpdateTodo_loop_absent s 0 b s 0 _ hzero

/-- In the collection holding id 2 twice, a request for id 0 finds nothing. -/
theorem reachable_ids_positive_so_zero_not_found_witness :
    Reachable [⟨2, "b", false⟩, ⟨2, "c", false⟩] ∧
      GetTodoByID [⟨2, "b", false⟩, ⟨2, "c", false⟩] (pathID (0, some "invalid syntax"))
        = (⟨404, .error "Todo not found"⟩, [⟨2, "b", false⟩, ⟨2, "c", false⟩]) := by
  have hr : Reachable [⟨2, "b", false⟩, ⟨2, "c", false⟩] := ⟨collidingRun, by decide⟩
  exact ⟨hr, ((reachable_ids_positive_so_zero_not_found _ hr).2.2
    (some "invalid syntax") ⟨0, "", false⟩).1⟩

/-- C17: when no stored todo has the id length + 1, a `GetTodoByID` on the id
that a `CreateTodo` with a decoded body has just answered gives 200 with
exactly the todo that `CreateTodo` answered; and every collection reached
without a DELETE has no stored todo with the id length + 1, so the same holds
for it outright. -/
theorem get_after_create_answers_created (s : List Todo) (b : Todo) :
    ((∀ t ∈ s, t.ID ≠ (s.length : Int) + 1) →
        ∃ t, (CreateTodo s (.ok b)).1 = ⟨201, .todo t⟩ ∧
          (GetTodoByID (CreateTodo s (.ok b)).2 t.ID).1 = ⟨200, .todo t⟩) ∧
      (ReachableWithoutDelete s →
        (∀ t ∈ s, t.ID ≠ (s.length : Int) + 1) ∧
          ∃ t, (CreateTodo s (.ok b)).1 = ⟨201, .todo t⟩ ∧
            (GetTodoByID (CreateTodo s (.ok b)).2 t.ID).1 = ⟨200, .todo t⟩) := by
  have found : (∀ t ∈ s, t.ID ≠ (s.length : Int) + 1) →
      ∃ t, (CreateTodo s (.ok b)).1 = ⟨201, .todo t⟩ ∧
        (GetTodoByID (CreateTodo s (.ok b)).2 t.ID).1 = ⟨200, .todo t⟩ := by
    intro h
    refine ⟨⟨(s.length : Int) + 1, b.Title, b.Done⟩, rfl, ?_⟩
    exact GetTodoByID_loop_found _ s ⟨(s.length : Int) + 1, b.Title, b.Done⟩ [] h rfl
  refine ⟨found, ?_⟩
  intro hr
  have hfresh : ∀ t ∈ s, t.ID ≠ (s.length : Int) + 1 := by
    intro t ht hid
    have hs := position_ids_of_reachableWithoutDelete s hr
    have := (present_iff_in_range s ((s.length : Int) + 1) hs).mp ⟨t, ht, hid⟩
    omega
  exact ⟨hfresh, found hfresh⟩

/-- Creating on the collection holding id 1, itself reached by one create, and
then looking up id 2. -/
theorem get_after_create_answers_created_witness :
    (∀ t ∈ [(⟨1, "a", false⟩ : Todo)],
        t.ID ≠ (([(⟨1, "a", false⟩ : Todo)].length : Nat) : Int) + 1) ∧
      ReachableWithoutDelete [⟨1, "a", false⟩] ∧
      ∃ t, (CreateTodo [⟨1, "a", false⟩] (.ok ⟨9, "b", true⟩)).1 = ⟨201, .todo t⟩ ∧
        (GetTodoByID (CreateTodo [⟨1, "a", false⟩] (.ok ⟨9, "b", true⟩)).2 t.ID).1
          = ⟨200, .todo t⟩ :=
  ⟨by decide, ⟨[.create (.ok ⟨0, "a", false⟩)], by decide, by decide⟩,
    (get_after_create_answers_created [⟨1, "a", false⟩] ⟨9, "b", true⟩).1 (by decide)⟩

/-- C18: `UpdateTodo` is idempotent: for every collection, id and request body,
decoded or not, doing the same update a second time gives the same answer and
the same collection as doing it once. -/
theorem UpdateTodo_idempotent (s : List Todo) (id : Int) (body : Except String Todo) :
    UpdateTodo (UpdateTodo s id body).2 id body = UpdateTodo s id body := by
  cases body with
  | error err => rfl
  | ok b =>
    by_cases h : ∃ t ∈ s, t.ID = id
    · obtain ⟨pre, t, post, e, hp, ht⟩ := exists_first_match id s h
      subst e
      rw [UpdateTodo_at_first_match id b pre t post hp ht]
      exact UpdateTodo_at_first_match id b pre ⟨t.ID, b.Title, b.Done⟩ post hp ht
    · have habs : ∀ x ∈ s, x.ID ≠ id := fun x hx hid => h ⟨x, hx, hid⟩
      have key : UpdateTodo s id (.ok b) = (⟨StatusNotFound, .error "Todo not found"⟩, s) :=
        UpdateTodo_loop_absent s id b s 0 _ habs
      rw [key]
      exact key

end TodoApi
